import Mathlib

/-!
Shallow embedding of the event-assembly and relay-publication pipeline of
the nip71-video-uploader repository (Go), together with theorems checking
the natural-language specification against it.

The embedding follows the Go source files `cmd/nip71/main.go`,
`cmd/nip68/main.go` (which also carries the `internal/utils` package:
`ValidateInput`, `UploadFile`, `createAuthorizationEvent`, `PublishEvent`,
`LoadRelaysFromFile`, `Pow`) and `internal/utils/signer.go`.
I/O boundaries (signing primitive, SHA-256, the external `nip13.DoWork`
search, the network and the file system) are passed in as parameters, so
that every definition here is executable.
-/

/-- A nostr event as built by this program: `nostr.Event` restricted to the
fields the pipeline writes before signing (`Sig` is produced afterwards by
the signer and no claim mentions it). -/
structure NEvent where
  kind : Int
  pubKey : String
  createdAt : Int
  tags : List (List String)
  content : String
deriving DecidableEq, Repr

/-- First tag of the list whose name (first element) is `name`. -/
def findTag (name : String) : List (List String) → Option (List String)
  | [] => none
  | t :: ts => if t.head? = some name then some t else findTag name ts

/-- The `nonce` tag of nip13: tag name, nonce value as decimal string,
target difficulty as decimal string. -/
def nonceTag (nonce : Nat) (diff : Int) : List String :=
  ["nonce", toString nonce, toString diff]

/-- Modelled from the spec: the external `nip13.DoWork` nonce search
(spec 4.3), which is not part of this repository.  It repeatedly assigns a
monotonically incremented nonce value inside a dedicated `nonce` tag,
recomputes the event identifier, and terminates when the identifier's
leading-zero-bit count reaches the target.  `difficulty e` stands for the
number of leading zero bits of the identifier of `e`; `fuel` bounds the
search so that the model stays executable. -/
def doWorkSearch (difficulty : NEvent → Nat) (e : NEvent) (d : Int) :
    Nat → Nat → Option (List String)
  | 0, _ => none
  | Nat.succ fuel, n =>
    if (difficulty { e with tags := e.tags ++ [nonceTag n d] } : Int) ≥ d then
      some (nonceTag n d)
    else
      doWorkSearch difficulty e d fuel (n + 1)

/-- Modelled from the spec: entry point of the external `nip13.DoWork`
search, starting from nonce 1. -/
def doWork (difficulty : NEvent → Nat) (fuel : Nat) (e : NEvent) (d : Int) :
    Option (List String) :=
  doWorkSearch difficulty e d fuel 1

/-- `utils.Pow` from the source: when `diff > 0` run the nonce search and
append the returned nonce tag to the event's tags; otherwise do nothing.
`search` stands for the external `nip13.DoWork` call. -/
def utilsPow (search : NEvent → Int → Option (List String)) (event : NEvent)
    (diff : Int) : Option NEvent :=
  if diff > 0 then
    match search event diff with
    | some nounce => some { event with tags := event.tags ++ [nounce] }
    | none => none
  else
    some event

/-- The `nostr.Event` literal built inside `createNip71Event` in
`cmd/nip71/main.go`, before `utils.Pow` is applied to it.  `pubKey` and
`createdAt` stand for the signer's public key and `nostr.Now()`. -/
def nip71BaseEvent (height width : Int) (fileSize : Int)
    (videoHash bhash mime : String)
    (title publishedAt videoURL description descriptor : String)
    (isLegacy : Bool) (pubKey : String) (createdAt : Int) : NEvent :=
  let eventKind : Int := if isLegacy then 34235 else 21
  let eventKind := if height > width then eventKind + 1 else eventKind
  let alt := if height > width then "Vertical Video" else "Horizontal Video"
  let dTag := if descriptor ≠ "" then descriptor else videoHash
  let tags : List (List String) :=
    [["alt", alt],
     ["title", title],
     ["published_at", publishedAt],
     ["imeta",
      "url " ++ videoURL,
      "m " ++ mime,
      "alt " ++ alt,
      "x " ++ videoHash,
      "size " ++ toString fileSize,
      "dim " ++ (toString width ++ "x" ++ toString height),
      "blurhash " ++ bhash]]
  let tags := if isLegacy then tags ++ [["d", dTag]] else tags
  { kind := eventKind, pubKey := pubKey, createdAt := createdAt,
    tags := tags, content := description }

/-- `createNip71Event` from `cmd/nip71/main.go`: the base event followed by
`utils.Pow`.  `search` stands for the external proof-of-work search. -/
def createNip71Event (search : NEvent → Int → Option (List String))
    (height width : Int) (fileSize : Int)
    (videoHash bhash mime : String)
    (title publishedAt videoURL description descriptor : String)
    (isLegacy : Bool) (diff : Int) (pubKey : String) (createdAt : Int) :
    Option NEvent :=
  utilsPow search
    (nip71BaseEvent height width fileSize videoHash bhash mime title
      publishedAt videoURL description descriptor isLegacy pubKey createdAt)
    diff

/-- `addImageIMetaTag` from `cmd/nip68/main.go`, parameterized by the
outputs of `utils.ExtractMediaInfo` (the file size is ignored by the
source). -/
def addImageIMetaTag (imageURL : String) (width height : Int)
    (fileHash bhash mime : String) : List String :=
  ["imeta",
   "url " ++ imageURL,
   "x " ++ fileHash,
   "dim " ++ (toString width ++ "x" ++ toString height),
   "m " ++ mime,
   "blurhash " ++ bhash]

/-- The `nostr.Event` literal built inside `createNip68Event` in
`cmd/nip68/main.go`, before `utils.Pow` is applied to it. -/
def nip68BaseEvent (imetaTags : List (List String))
    (title publishedAt description : String)
    (pubKey : String) (createdAt : Int) : NEvent :=
  let eventKind : Int := 20
  let tags : List (List String) :=
    [["title", title], ["published_at", publishedAt]] ++ imetaTags
  { kind := eventKind, pubKey := pubKey, createdAt := createdAt,
    tags := tags, content := description }

/-- `createNip68Event` from `cmd/nip68/main.go`: the base event followed by
`utils.Pow`. -/
def createNip68Event (search : NEvent → Int → Option (List String))
    (imetaTags : List (List String))
    (title publishedAt description : String)
    (diff : Int) (pubKey : String) (createdAt : Int) : Option NEvent :=
  utilsPow search (nip68BaseEvent imetaTags title publishedAt description pubKey createdAt)
    diff

/-- `Pow` never changes the kind of the event. -/
theorem utilsPow_kind (search : NEvent → Int → Option (List String))
    (e e' : NEvent) (d : Int) (h : utilsPow search e d = some e') :
    e'.kind = e.kind := by
  unfold utilsPow at h
  split at h
  · cases hs : search e d with
    | none => rw [hs] at h; cases h
    | some t => rw [hs] at h; cases h; rfl
  · cases h; rfl

/-- `Pow` only ever appends tags at the end of the tag list. -/
theorem utilsPow_tags (search : NEvent → Int → Option (List String))
    (e e' : NEvent) (d : Int) (h : utilsPow search e d = some e') :
    e'.tags = e.tags ∨ ∃ t, e'.tags = e.tags ++ [t] := by
  unfold utilsPow at h
  split at h
  · cases hs : search e d with
    | none => rw [hs] at h; cases h
    | some t => rw [hs] at h; cases h; exact Or.inr ⟨t, rfl⟩
  · cases h; exact Or.inl rfl

/-- Value list of the first `d` tag, as claims read it. -/
def tagValue (t : List String) : Option String := t[1]?

/-- Key of a space-separated `key value` sub-entry of an `imeta` tag. -/
def firstWord (s : String) : String :=
  String.mk (s.toList.takeWhile (fun c => c != Char.ofNat 32))

/-- The keys of the sub-entries of an `imeta` tag, in emitted order. -/
def imetaKeys (t : List String) : List String := (t.drop 1).map firstWord

theorem firstWord_url (s : String) : firstWord ("url " ++ s) = "url" := by
  cases s; rfl

theorem firstWord_m (s : String) : firstWord ("m " ++ s) = "m" := by
  cases s; rfl

theorem firstWord_alt (s : String) : firstWord ("alt " ++ s) = "alt" := by
  cases s; rfl

theorem firstWord_x (s : String) : firstWord ("x " ++ s) = "x" := by
  cases s; rfl

theorem firstWord_size (s : String) : firstWord ("size " ++ s) = "size" := by
  cases s; rfl

theorem firstWord_dim (s : String) : firstWord ("dim " ++ s) = "dim" := by
  cases s; rfl

theorem firstWord_blurhash (s : String) : firstWord ("blurhash " ++ s) = "blurhash" := by
  cases s; rfl

theorem findTag_append (name : String) (l l' : List (List String))
    (t : List String) (h : findTag name l = some t) :
    findTag name (l ++ l') = some t := by
  induction l with
  | nil => simp [findTag] at h
  | cons x xs ih =>
    rw [List.cons_append]
    unfold findTag at h ⊢
    by_cases hx : x.head? = some name
    · rw [if_pos hx] at h ⊢; exact h
    · rw [if_neg hx] at h ⊢; exact ih h

/-- Claim C1: kind selection follows orientation.  In current mode the
video event gets kind 22 when height > width and 21 otherwise; in legacy
mode 34236 when height > width and 34235 otherwise; the image event gets
kind 20 for every width and height. -/
theorem C1_kind_selection (search : NEvent → Int → Option (List String))
    (height width fileSize : Int)
    (videoHash bhash mime title publishedAt videoURL description descriptor : String)
    (isLegacy : Bool) (diff : Int) (pubKey : String) (createdAt : Int)
    (imetaTags : List (List String)) (e e2 : NEvent) :
    (createNip71Event search height width fileSize videoHash bhash mime title
        publishedAt videoURL description descriptor isLegacy diff pubKey createdAt =
        some e →
      e.kind = if isLegacy then (if height > width then (34236 : Int) else 34235)
               else (if height > width then 22 else 21)) ∧
    (createNip68Event search imetaTags title publishedAt description diff pubKey
        createdAt = some e2 →
      e2.kind = 20) := by
  constructor
  · intro h
    have hk := utilsPow_kind search _ e diff h
    rw [hk]
    by_cases hw : height > width <;> cases isLegacy <;>
      simp [nip71BaseEvent, hw]
  · intro h2
    have hk := utilsPow_kind search _ e2 diff h2
    rw [hk]
    rfl

/-- A proof-of-work search stub used by concrete instantiations; with
difficulty 0 it is never consulted. -/
def sampleSearch : NEvent → Int → Option (List String) := fun _ _ => none

/-- The event `createNip71Event` builds at the concrete input of the C1
witness (height 200, width 100, current mode, difficulty 0). -/
def sampleVideoEvent : NEvent :=
  { kind := 22, pubKey := "pk", createdAt := 7,
    tags := [["alt", "Vertical Video"], ["title", "t"], ["published_at", "1"],
      ["imeta", "url u", "m m", "alt Vertical Video", "x h", "size 5",
       "dim 100x200", "blurhash b"]],
    content := "c" }

/-- The event `createNip68Event` builds at the concrete input of the C1
witness (no imeta tags, difficulty 0). -/
def samplePicEvent : NEvent :=
  { kind := 20, pubKey := "pk", createdAt := 7,
    tags := [["title", "t"], ["published_at", "1"]], content := "c" }

/-- Witness for C1 at a concrete input: a 100x200 current-mode video event
has kind 22 and an image event has kind 20. -/
theorem C1_kind_selection_witness :
    sampleVideoEvent.kind =
      (if (false : Bool) then (if (200 : Int) > 100 then (34236 : Int) else 34235)
       else (if (200 : Int) > 100 then 22 else 21)) ∧
    samplePicEvent.kind = 20 :=
  ⟨(C1_kind_selection sampleSearch 200 100 5 "h" "b" "m" "t" "1" "u" "c" ""
      false 0 "pk" 7 [] sampleVideoEvent samplePicEvent).1 (by decide),
   (C1_kind_selection sampleSearch 200 100 5 "h" "b" "m" "t" "1" "u" "c" ""
      false 0 "pk" 7 [] sampleVideoEvent samplePicEvent).2 (by decide)⟩

/-- Claim C4 counterexample: in legacy mode with the empty override string
supplied and content hash "abc", the `d` tag value is the hash "abc", not
the override "" verbatim, so an empty override does not win. -/
theorem C4_counterexample :
    ((createNip71Event sampleSearch 100 200 5 "abc" "b" "m" "t" "1" "u" "c" ""
        true 0 "pk" 7).map (fun e => findTag "d" e.tags)) =
      some (some ["d", "abc"]) ∧ ("abc" : String) ≠ "" := by
  constructor
  · decide
  · decide

/-- Claim C4 (amended): in legacy mode the `d` tag value is the supplied
override whenever the override is non-empty, and the media content hash
when the override is empty (the code cannot distinguish an absent override
from an empty one). -/
theorem C4_dtag_amended (search : NEvent → Int → Option (List String))
    (height width fileSize : Int)
    (videoHash bhash mime title publishedAt videoURL description descriptor : String)
    (diff : Int) (pubKey : String) (createdAt : Int) (e : NEvent)
    (h : createNip71Event search height width fileSize videoHash bhash mime title
        publishedAt videoURL description descriptor true diff pubKey createdAt =
        some e) :
    findTag "d" e.tags =
      some ["d", if descriptor ≠ "" then descriptor else videoHash] := by
  have hbase : findTag "d"
      (nip71BaseEvent height width fileSize videoHash bhash mime title
        publishedAt videoURL description descriptor true pubKey createdAt).tags =
      some ["d", if descriptor ≠ "" then descriptor else videoHash] := by
    simp [nip71BaseEvent, findTag]
  rcases utilsPow_tags search _ e diff h with ht | ⟨t, ht⟩
  · rw [ht]; exact hbase
  · rw [ht]; exact findTag_append _ _ _ _ hbase

/-- The event `createNip71Event` builds at the concrete input of the C4
witness (legacy mode, override "xyz", hash "abc", difficulty 0). -/
def sampleLegacyEvent : NEvent :=
  { kind := 34235, pubKey := "pk", createdAt := 7,
    tags := [["alt", "Horizontal Video"], ["title", "t"], ["published_at", "1"],
      ["imeta", "url u", "m m", "alt Horizontal Video", "x abc", "size 5",
       "dim 200x100", "blurhash b"],
      ["d", "xyz"]],
    content := "c" }

/-- Witness for the amended C4 at a concrete input: a non-empty override
"xyz" wins over the hash "abc". -/
theorem C4_dtag_amended_witness :
    findTag "d" sampleLegacyEvent.tags =
      some ["d", if ("xyz" : String) ≠ "" then "xyz" else "abc"] :=
  C4_dtag_amended sampleSearch 100 200 5 "abc" "b" "m" "t" "1" "u" "c" "xyz"
    0 "pk" 7 sampleLegacyEvent (by decide)

/-- `parseAndInitParams` from `cmd/nip71/main.go`, restricted to its pure
parameter-defaulting part (flag parsing and key decoding are out of
scope): the description self-assignment is a no-op, `publishedAt`
defaults to the current time, and no default at all is applied to the
title. -/
def parseAndInitParams (description publishedAt title : String) (now : Int) :
    String × String × String :=
  let description := if description = "" then "" else description
  let publishedAt := if publishedAt = "" then toString now else publishedAt
  (description, publishedAt, title)

/-- Claim C5 (code bug): the repository README documents that the nip71
title defaults to the video URL, but `cmd/nip71/main.go` never applies
that default: `parseAndInitParams` passes the title through unchanged and
the built event's `title` tag is the empty string when no title was
supplied, not the source URL. -/
theorem C5_title_default_bug :
    (∀ description publishedAt title now,
        (parseAndInitParams description publishedAt title now).2.2 = title) ∧
    ((createNip71Event sampleSearch 100 200 5 "h" "b" "m" "" "1"
        "https://example.com/video.mp4" "c" "" false 0 "pk" 7).map
        (fun e => findTag "title" e.tags)) = some (some ["title", ""]) ∧
    ("" : String) ≠ "https://example.com/video.mp4" := by
  refine ⟨fun _ _ _ _ => rfl, by decide, by decide⟩

/-- Claim C7: every `imeta` tag carries its `key value` sub-entries in the
fixed order of the source: url, m, alt, x, size, dim, blurhash for a
current-schema video event, and url, x, dim, m, blurhash for an image
item. -/
theorem C7_imeta_order (search : NEvent → Int → Option (List String))
    (height width fileSize : Int)
    (videoHash bhash mime title publishedAt videoURL description descriptor : String)
    (diff : Int) (pubKey : String) (createdAt : Int) (e : NEvent)
    (imageURL fileHash bhash2 mime2 : String) (w2 h2 : Int)
    (h : createNip71Event search height width fileSize videoHash bhash mime title
        publishedAt videoURL description descriptor false diff pubKey createdAt =
        some e) :
    (findTag "imeta" e.tags).map imetaKeys =
      some ["url", "m", "alt", "x", "size", "dim", "blurhash"] ∧
    imetaKeys (addImageIMetaTag imageURL w2 h2 fileHash bhash2 mime2) =
      ["url", "x", "dim", "m", "blurhash"] := by
  constructor
  · rcases utilsPow_tags search _ e diff h with ht | ⟨t, ht⟩ <;>
      rw [ht] <;>
      simp [nip71BaseEvent, findTag, imetaKeys, firstWord_url, firstWord_m,
        firstWord_alt, firstWord_x, firstWord_size, firstWord_dim,
        firstWord_blurhash]
  · simp [addImageIMetaTag, imetaKeys, firstWord_url, firstWord_x,
      firstWord_dim, firstWord_m, firstWord_blurhash]

/-- Witness for C7 at a concrete input. -/
theorem C7_imeta_order_witness :
    (findTag "imeta" sampleVideoEvent.tags).map imetaKeys =
      some ["url", "m", "alt", "x", "size", "dim", "blurhash"] ∧
    imetaKeys (addImageIMetaTag "iu" 10 20 "fh" "b2" "m2") =
      ["url", "x", "dim", "m", "blurhash"] :=
  C7_imeta_order sampleSearch 200 100 5 "h" "b" "m" "t" "1" "u" "c" "" 0 "pk" 7
    sampleVideoEvent "iu" "fh" "b2" "m2" 10 20 (by decide)

/-- Soundness of the nonce search: a returned tag is a nonce tag whose
appended form meets the difficulty target. -/
theorem doWorkSearch_sound (difficulty : NEvent → Nat) (e : NEvent) (d : Int)
    (fuel : Nat) :
    ∀ (n : Nat) (t : List String), doWorkSearch difficulty e d fuel n = some t →
      ∃ m, t = nonceTag m d ∧
        (difficulty { e with tags := e.tags ++ [nonceTag m d] } : Int) ≥ d := by
  induction fuel with
  | zero => intro n t h; simp [doWorkSearch] at h
  | succ k ih =>
    intro n t h
    unfold doWorkSearch at h
    split at h
    · rename_i hge
      cases h
      exact ⟨n, rfl, hge⟩
    · exact ih _ _ h

/-- Claim C2: with a positive target difficulty the proof-of-work step
succeeds only with an event whose identifier has at least the target
number of leading zero bits (`difficulty` counts them), and the winning
nonce tag is appended as the last tag; with a non-positive target it is a
no-op and the event (hence its tag sequence) is unchanged. -/
theorem C2_pow_spec (difficulty : NEvent → Nat) (fuel : Nat) (e : NEvent)
    (d : Int) :
    (d ≤ 0 → utilsPow (doWork difficulty fuel) e d = some e) ∧
    (∀ e', utilsPow (doWork difficulty fuel) e d = some e' → d > 0 →
      ∃ n, e'.tags = e.tags ++ [nonceTag n d] ∧ (difficulty e' : Int) ≥ d) := by
  constructor
  · intro hd
    unfold utilsPow
    rw [if_neg (by omega)]
  · intro e' h _
    unfold utilsPow at h
    split at h
    · cases hs : doWork difficulty fuel e d with
      | none => rw [hs] at h; cases h
      | some t =>
        rw [hs] at h
        rcases doWorkSearch_sound difficulty e d fuel 1 t hs with ⟨n, rfl, hge⟩
        cases h
        exact ⟨n, rfl, hge⟩
    · rename_i hd'
      omega

/-- A constant leading-zero-bit counter used by the C2 witness. -/
def sampleDifficulty : NEvent → Nat := fun _ => 5

/-- Witness for C2 at concrete inputs: difficulty 0 is a no-op, and with
target 1 the nonce tag ["nonce", "1", "1"] is appended as the last tag
and the identifier meets the target. -/
theorem C2_pow_spec_witness :
    utilsPow (doWork sampleDifficulty 1) samplePicEvent 0 = some samplePicEvent ∧
    (∃ n, ({ samplePicEvent with
          tags := samplePicEvent.tags ++ [["nonce", "1", "1"]] } : NEvent).tags =
        samplePicEvent.tags ++ [nonceTag n 1] ∧
      (sampleDifficulty { samplePicEvent with
          tags := samplePicEvent.tags ++ [["nonce", "1", "1"]] } : Int) ≥ 1) :=
  ⟨(C2_pow_spec sampleDifficulty 1 samplePicEvent 0).1 (by decide),
   (C2_pow_spec sampleDifficulty 1 samplePicEvent 1).2
     { samplePicEvent with tags := samplePicEvent.tags ++ [["nonce", "1", "1"]] }
     (by decide) (by decide)⟩

/-- The externally observable behavior of one relay towards this client:
whether the connection succeeds, the error message of the first publish
attempt (`none` = accepted), whether the auth submission (signed via the
signer abstraction) succeeds, and the error of the retried publish. -/
structure RelayBehavior where
  connectOk : Bool
  pub1Err : Option String
  authOk : Bool
  pub2Err : Option String
deriving DecidableEq, Repr

/-- Per-relay outcome as logged by `PublishEvent`. -/
inductive RelayOutcome where
  | connectFailed
  | published
  | authFailed
  | publishedAfterAuth
  | failedAfterAuth
  | otherPublishError
deriving DecidableEq, Repr

/-- What `PublishEvent` did on one relay: the logged outcome, the number
of authentication events signed and submitted, and the number of publish
attempts for the original event. -/
structure RelayStats where
  outcome : RelayOutcome
  authEvents : Nat
  publishAttempts : Nat
deriving DecidableEq, Repr

/-- The `strings.HasPrefix` check of Go, on the character level. -/
def goHasPfx (s pre : String) : Bool := pre.toList.isPrefixOf s.toList

/-- The error-message marker `PublishEvent` matches on. -/
def authRequiredMarker : String := "msg: auth-required:"

/-- One iteration of the relay loop of `utils.PublishEvent` from the
source: connect; publish; on an error whose message starts with the
auth-required marker, sign and submit one auth event and, if that
succeeded, retry the publish exactly once; any other error is only
logged. -/
def publishToRelay (w : RelayBehavior) : RelayStats :=
  if ¬ w.connectOk then ⟨.connectFailed, 0, 0⟩
  else
    match w.pub1Err with
    | none => ⟨.published, 0, 1⟩
    | some msg =>
      if goHasPfx msg authRequiredMarker then
        if ¬ w.authOk then ⟨.authFailed, 1, 1⟩
        else
          match w.pub2Err with
          | none => ⟨.publishedAfterAuth, 1, 2⟩
          | some _ => ⟨.failedAfterAuth, 1, 2⟩
      else ⟨.otherPublishError, 0, 1⟩

/-- `utils.PublishEvent` from the source: the loop body runs once per
relay in the given order, and every branch of the body falls through to
the next relay (`continue` / end of the loop body), so the whole run is a
map over the relay list. -/
def PublishEvent (relays : List RelayBehavior) : List RelayStats :=
  relays.map publishToRelay

/-- Claim C3: a relay whose first publish attempt is rejected with the
auth-required marker gets exactly one signed auth submission; when that
submission succeeds the original publish is retried exactly once (two
attempts in total); when the auth submission or the retried publish
fails, only that relay is recorded as failed, and every relay in the list
is still processed independently of the others. -/
theorem C3_auth_retry (relays : List RelayBehavior) (i : Nat)
    (w : RelayBehavior) (m : String)
    (hw : relays[i]? = some w) (hconn : w.connectOk = true)
    (hm : w.pub1Err = some m)
    (hpre : goHasPfx m authRequiredMarker = true) :
    (PublishEvent relays).length = relays.length ∧
    (PublishEvent relays)[i]? = some (publishToRelay w) ∧
    (publishToRelay w).authEvents = 1 ∧
    (w.authOk = true → (publishToRelay w).publishAttempts = 2) ∧
    (w.authOk = false ∨ w.pub2Err ≠ none →
      (publishToRelay w).outcome = .authFailed ∨
      (publishToRelay w).outcome = .failedAfterAuth) ∧
    (∀ j : Nat, (PublishEvent relays)[j]? = (relays[j]?).map publishToRelay) := by
  have hstats : publishToRelay w =
      (if ¬ w.authOk then (⟨.authFailed, 1, 1⟩ : RelayStats)
       else
         match w.pub2Err with
         | none => ⟨.publishedAfterAuth, 1, 2⟩
         | some _ => ⟨.failedAfterAuth, 1, 2⟩) := by
    unfold publishToRelay
    rw [hm, if_neg (by simp [hconn])]
    dsimp only
    rw [hpre]
    simp
  refine ⟨by simp [PublishEvent], by simp [PublishEvent, hw], ?_, ?_, ?_, ?_⟩
  · rw [hstats]
    cases hauth : w.authOk <;> simp
    cases w.pub2Err <;> simp
  · intro hauth
    rw [hstats, hauth]
    simp
    cases w.pub2Err <;> simp
  · intro hfail
    rw [hstats]
    cases hauth : w.authOk with
    | false => simp
    | true =>
      simp
      rcases hfail with hf | hf
      · cases hf.symm.trans hauth
      · cases hp : w.pub2Err with
        | none => exact absurd hp hf
        | some s => simp
  · intro j
    simp [PublishEvent]

/-- A relay that rejects the first publish with an auth challenge, accepts
the auth event and the retried publish. -/
def sampleAuthRelay : RelayBehavior :=
  ⟨true, some "msg: auth-required: please sign", true, none⟩

/-- A relay that accepts the publish at once. -/
def samplePlainRelay : RelayBehavior := ⟨true, none, true, none⟩

/-- Witness for C3 on a concrete two-relay list. -/
theorem C3_auth_retry_witness :
    (PublishEvent [sampleAuthRelay, samplePlainRelay]).length =
      ([sampleAuthRelay, samplePlainRelay] : List RelayBehavior).length ∧
    (PublishEvent [sampleAuthRelay, samplePlainRelay])[0]? =
      some (publishToRelay sampleAuthRelay) ∧
    (publishToRelay sampleAuthRelay).authEvents = 1 ∧
    (sampleAuthRelay.authOk = true →
      (publishToRelay sampleAuthRelay).publishAttempts = 2) ∧
    (sampleAuthRelay.authOk = false ∨ sampleAuthRelay.pub2Err ≠ none →
      (publishToRelay sampleAuthRelay).outcome = .authFailed ∨
      (publishToRelay sampleAuthRelay).outcome = .failedAfterAuth) ∧
    (∀ j : Nat, (PublishEvent [sampleAuthRelay, samplePlainRelay])[j]? =
      (([sampleAuthRelay, samplePlainRelay] : List RelayBehavior)[j]?).map
        publishToRelay) :=
  C3_auth_retry [sampleAuthRelay, samplePlainRelay] 0 sampleAuthRelay
    "msg: auth-required: please sign" (by decide) (by decide) (by decide)
    (by decide)

/-- `ConvertNIP19ToHex` from `internal/utils/signer.go`: keys with the
`nsec` bech32 marker are decoded (the external `nip19.Decode`, passed in
as `nip19Decode`, may fail); every other key string is returned as-is
with no error. -/
def ConvertNIP19ToHex (nip19Decode : String → Option String) (key : String) :
    Option String :=
  if goHasPfx key "nsec" then
    match nip19Decode key with
    | some decoded => some decoded
    | none => none
  else some key

/-- Claim C9: key-format normalization passes every input that does not
start with "nsec" through unchanged and without error, whatever the
decoder does; decoding happens only for "nsec"-prefixed inputs. -/
theorem C9_key_passthrough (nip19Decode : String → Option String)
    (key : String) (h : goHasPfx key "nsec" = false) :
    ConvertNIP19ToHex nip19Decode key = some key := by
  unfold ConvertNIP19ToHex
  rw [h]
  simp

/-- Witness for C9 at concrete inputs, including the empty string, with a
decoder that always fails. -/
theorem C9_key_passthrough_witness :
    ConvertNIP19ToHex (fun _ => none) "" = some "" ∧
    ConvertNIP19ToHex (fun _ => none) "deadbeef" = some "deadbeef" :=
  ⟨C9_key_passthrough (fun _ => none) "" (by decide),
   C9_key_passthrough (fun _ => none) "deadbeef" (by decide)⟩

/-- `loadRelays` from `cmd/nip71/main.go`: a `ws://`- or `wss://`-prefixed
parameter is itself the single relay; otherwise, if the parameter names
an existing file, the relay list is read from it; otherwise no relays.
`fileExists` stands for `os.Stat` succeeding and `fileRelays` for
`utils.LoadRelaysFromFile`. -/
def loadRelays (fileExists : String → Bool)
    (fileRelays : String → List String) (relayParam : String) : List String :=
  if goHasPfx relayParam "ws://" || goHasPfx relayParam "wss://" then
    [relayParam]
  else if fileExists relayParam then fileRelays relayParam
  else []

/-- The tail of `main` in `cmd/nip71/main.go` after the signed event is
printed: which relays `utils.PublishEvent` is invoked with (empty = not
invoked at all), and the fatal error, which on this path never occurs
(the nip71 command has no branch reporting an empty relay list). -/
def nip71PublishStep (fileExists : String → Bool)
    (fileRelays : String → List String) (relayFlag rFlag : String) :
    List String × Option String :=
  if relayFlag ≠ "" ∨ rFlag ≠ "" then
    let relays := loadRelays fileExists fileRelays relayFlag
    let relays := if relays.length = 0 then loadRelays fileExists fileRelays rFlag
      else relays
    if relays.length > 0 then (relays, none) else ([], none)
  else ([], none)

/-- Claim C10: when a relay flag is set but neither relay parameter is a
`ws://`/`wss://` URI or an existing file, the nip71 run publishes to no
relay and raises no error: publication is silently skipped. -/
theorem C10_silent_skip (fileExists : String → Bool)
    (fileRelays : String → List String) (relayFlag rFlag : String)
    (hflag : relayFlag ≠ "" ∨ rFlag ≠ "")
    (h1 : goHasPfx relayFlag "ws://" = false)
    (h2 : goHasPfx relayFlag "wss://" = false)
    (h3 : fileExists relayFlag = false)
    (h4 : goHasPfx rFlag "ws://" = false)
    (h5 : goHasPfx rFlag "wss://" = false)
    (h6 : fileExists rFlag = false) :
    nip71PublishStep fileExists fileRelays relayFlag rFlag = ([], none) := by
  have hl1 : loadRelays fileExists fileRelays relayFlag = [] := by
    unfold loadRelays
    rw [h1, h2, h3]
    simp
  have hl2 : loadRelays fileExists fileRelays rFlag = [] := by
    unfold loadRelays
    rw [h4, h5, h6]
    simp
  unfold nip71PublishStep
  rw [if_pos hflag]
  simp [hl1, hl2]

/-- Witness for C10: relay flag "norelays.json" set, pointing at nothing. -/
theorem C10_silent_skip_witness :
    nip71PublishStep (fun _ => false) (fun _ => []) "norelays.json" "" =
      ([], none) :=
  C10_silent_skip (fun _ => false) (fun _ => []) "norelays.json" ""
    (Or.inl (by decide)) (by decide) (by decide) (by decide) (by decide)
    (by decide) (by decide)

/-- A lowercase hexadecimal digit, as `encoding/hex` emits them. -/
def hexDigit (n : Nat) : Char :=
  if n < 10 then Char.ofNat (48 + n) else Char.ofNat (87 + n)

/-- `hex.EncodeToString` over a byte list. -/
def hexEncode (bytes : List Nat) : String :=
  String.mk ((bytes.map (fun b => [hexDigit (b / 16 % 16), hexDigit (b % 16)])).flatten)

/-- `createAuthorizationEvent` from the source, up to signing and the
base64/JSON serialization that wraps it (out of scope here): kind 24242,
content "Upload file", a `t verb` tag followed by the supplied tags, and
the signer's public key. -/
def createAuthorizationEvent (verb : String) (tags : List (List String))
    (pubKey : String) (createdAt : Int) : NEvent :=
  { kind := 24242, pubKey := pubKey, createdAt := createdAt,
    tags := [["t", verb]] ++ tags, content := "Upload file" }

/-- The tag list `UploadFile` passes to `createAuthorizationEvent`: the
hex-encoded SHA-256 of the file, a `t upload` tag, and an expiration 5
minutes (300 seconds) from now. -/
def uploadAuthTags (sha256Hash : String) (now : Int) : List (List String) :=
  [["x", sha256Hash], ["t", "upload"], ["expiration", toString (now + 300)]]

/-- The authorization event `UploadFile` builds for a file with the given
bytes; the SHA-256 primitive is passed in. -/
def uploadAuthEvent (sha256 : List Nat → List Nat) (fileBytes : List Nat)
    (now : Int) (pubKey : String) : NEvent :=
  createAuthorizationEvent "upload"
    (uploadAuthTags (hexEncode (sha256 fileBytes)) now) pubKey now

/-- The response check in `UploadFile`: any HTTP status other than 200,
201 or 202 is a failure. -/
def uploadStatusOk (code : Int) : Bool :=
  !(code != 200 && code != 201 && code != 202)

/-- Claim C8: the upload authorization event has kind 24242, a `t upload`
tag, an `x` tag holding the hex-encoded SHA-256 hash of the uploaded
file, and an `expiration` tag 5 minutes (300 seconds) after the current
time; the upload counts as successful exactly for HTTP statuses 200, 201
and 202. -/
theorem C8_upload_auth (sha256 : List Nat → List Nat) (fileBytes : List Nat)
    (now : Int) (pubKey : String) (code : Int) :
    (uploadAuthEvent sha256 fileBytes now pubKey).kind = 24242 ∧
    ["t", "upload"] ∈ (uploadAuthEvent sha256 fileBytes now pubKey).tags ∧
    ["x", hexEncode (sha256 fileBytes)] ∈
      (uploadAuthEvent sha256 fileBytes now pubKey).tags ∧
    ["expiration", toString (now + 300)] ∈
      (uploadAuthEvent sha256 fileBytes now pubKey).tags ∧
    (uploadStatusOk code = true ↔ (code = 200 ∨ code = 201 ∨ code = 202)) := by
  refine ⟨rfl, ?_, ?_, ?_, ?_⟩
  · simp [uploadAuthEvent, createAuthorizationEvent, uploadAuthTags]
  · simp [uploadAuthEvent, createAuthorizationEvent, uploadAuthTags]
  · simp [uploadAuthEvent, createAuthorizationEvent, uploadAuthTags]
  · simp [uploadStatusOk]
    omega

/-- Witness for C8 at a concrete input (identity "hash", bytes [0, 255],
status 201). -/
theorem C8_upload_auth_witness :
    (uploadAuthEvent (fun bs => bs) [0, 255] 10 "pk").kind = 24242 ∧
    ["t", "upload"] ∈ (uploadAuthEvent (fun bs => bs) [0, 255] 10 "pk").tags ∧
    ["x", hexEncode ((fun bs => bs) [0, 255])] ∈
      (uploadAuthEvent (fun bs => bs) [0, 255] 10 "pk").tags ∧
    ["expiration", toString ((10 : Int) + 300)] ∈
      (uploadAuthEvent (fun bs => bs) [0, 255] 10 "pk").tags ∧
    (uploadStatusOk 201 = true ↔
      ((201 : Int) = 200 ∨ (201 : Int) = 201 ∨ (201 : Int) = 202)) :=
  C8_upload_auth (fun bs => bs) [0, 255] 10 "pk" 201

/-- ASCII decimal digit. -/
def isDigitChar (c : Char) : Bool := ('0' ≤ c && c ≤ '9')

/-- ASCII letter. -/
def isAlphaChar (c : Char) : Bool :=
  ('a' ≤ c && c ≤ 'z') || ('A' ≤ c && c ≤ 'Z')

/-- ASCII hexadecimal digit (`ishex` in net/url). -/
def isHexDigitChar (c : Char) : Bool :=
  isDigitChar c || ('a' ≤ c && c ≤ 'f') || ('A' ≤ c && c ≤ 'F')

/-- `stringContainsCTLByte`: an ASCII control character. -/
def isCtlByte (c : Char) : Bool := c.toNat < 32 || c.toNat == 127

/-- `unhex` in net/url. -/
def hexCharVal (c : Char) : Nat :=
  if isDigitChar c then c.toNat - 48
  else if 'a' ≤ c && c ≤ 'f' then c.toNat - 87
  else if 'A' ≤ c && c ≤ 'F' then c.toNat - 55
  else 0

/-- `getScheme` in net/url: scan for a scheme ending in a colon; a
leading digit/`+`/`-`/`.` or any other character means no scheme (the
whole input is the remainder), and a colon at position 0 is an error. -/
def getScheme (orig : List Char) : List Char → List Char → Option (List Char × List Char)
  | _, [] => some ([], orig)
  | acc, c :: rest =>
    if isAlphaChar c then getScheme orig (acc ++ [c]) rest
    else if isDigitChar c || c == '+' || c == '-' || c == '.' then
      (if acc.isEmpty then some ([], orig) else getScheme orig (acc ++ [c]) rest)
    else if c == ':' then
      (if acc.isEmpty then none else some (acc, rest))
    else some ([], orig)

/-- `strings.Cut` at the first occurrence of `c`. -/
def cutAtFirst (c : Char) : List Char → List Char × List Char
  | [] => ([], [])
  | x :: rest =>
    if x == c then ([], rest)
    else
      let p := cutAtFirst c rest
      (x :: p.1, p.2)

/-- The query-splitting step of net/url `parse`: a single trailing `?`
(force-query) is dropped, otherwise everything from the first `?` on is
the raw query; only the part before the query is parsed further. -/
def stripQuery (rest : List Char) : List Char :=
  if rest.getLast? == some '?' && !(rest.dropLast.contains '?') then
    rest.dropLast
  else (cutAtFirst '?' rest).1

/-- `validUserinfo` in net/url. -/
def validUserinfo (s : List Char) : Bool :=
  s.all (fun c =>
    isAlphaChar c || isDigitChar c || c == '-' || c == '.' || c == '_' ||
    c == ':' || c == '~' || c == '!' || c == '$' || c == '&' ||
    c == Char.ofNat 39 || c == '(' || c == ')' || c == '*' || c == '+' ||
    c == ',' || c == ';' || c == '=' || c == '%' || c == '@')

/-- The characters `shouldEscape` leaves unescaped in host context
(alphanumerics, the host sub-delims including `: [ ] < > "`, and the
RFC 3986 marks). -/
def hostCharAllowed (c : Char) : Bool :=
  isAlphaChar c || isDigitChar c ||
  c == '!' || c == '$' || c == '&' || c == Char.ofNat 39 || c == '(' ||
  c == ')' || c == '*' || c == '+' || c == ',' || c == ';' || c == '=' ||
  c == ':' || c == '[' || c == ']' || c == '<' || c == '>' ||
  c == Char.ofNat 34 || c == '-' || c == '_' || c == '.' || c == '~'

/-- `shouldEscape(v, encodeHost)` for a decoded byte value. -/
def shouldEscapeHostByte (v : Nat) : Bool :=
  !(v < 128 && hostCharAllowed (Char.ofNat v))

/-- The escaping context of net/url `unescape` that matters for errors. -/
inductive EscapeMode where
  | path
  | host
  | zone
  | userPassword
deriving DecidableEq, Repr

/-- Whether net/url `unescape` succeeds: every `%` needs two hex digits;
in host context an escaped byte must be `%25` or at least 0x80, and
unescaped ASCII must be a host-allowed character; in zone context the
escaped byte must be `%25`, a space, or host-allowed. -/
def unescapeOk (mode : EscapeMode) : List Char → Bool
  | [] => true
  | c :: rest =>
    if c == '%' then
      match rest with
      | a :: b :: rest2 =>
        if !(isHexDigitChar a && isHexDigitChar b) then false
        else if mode == .host && hexCharVal a < 8 && !(a == '2' && b == '5') then
          false
        else if mode == .zone && !(a == '2' && b == '5') &&
            (hexCharVal a * 16 + hexCharVal b) != 32 &&
            shouldEscapeHostByte (hexCharVal a * 16 + hexCharVal b) then
          false
        else unescapeOk mode rest2
      | _ => false
    else if (mode == .host || mode == .zone) && c.toNat < 128 && !hostCharAllowed c then
      false
    else unescapeOk mode rest

/-- `validOptionalPort` in net/url: empty, or a colon followed by digits. -/
def validOptionalPort : List Char → Bool
  | [] => true
  | c :: rest => c == ':' && rest.all isDigitChar

/-- `strings.Index(l, "%25")`. -/
def indexOfPct25 : List Char → Option Nat
  | [] => none
  | '%' :: '2' :: '5' :: _ => some 0
  | _ :: rest => (indexOfPct25 rest).map (fun n => n + 1)

/-- `strings.LastIndex` for a single character. -/
def lastIndexOf (c : Char) (l : List Char) : Option Nat :=
  match l.reverse.findIdx? (fun x => x == c) with
  | some i => some (l.length - 1 - i)
  | none => none

/-- Whether `parseHost` in net/url succeeds: bracketed IP-literals need a
closing bracket, a valid optional port and valid zone/host escapes;
other hosts need a valid optional port after the last colon and valid
host escapes. -/
def parseHost (host : List Char) : Bool :=
  match host with
  | '[' :: _ =>
    (match lastIndexOf ']' host with
     | none => false
     | some i =>
       if !validOptionalPort (host.drop (i + 1)) then false
       else
         match indexOfPct25 (host.take i) with
         | some z =>
           unescapeOk .host (host.take z) &&
           unescapeOk .zone ((host.take i).drop z) &&
           unescapeOk .host (host.drop i)
         | none => unescapeOk .host host)
  | _ =>
    (match lastIndexOf ':' host with
     | some i => validOptionalPort (host.drop i) && unescapeOk .host host
     | none => unescapeOk .host host)

/-- Whether `parseAuthority` in net/url succeeds: the host after the last
`@` must parse, and any userinfo before it must be valid and unescape,
username and password separately when a colon is present. -/
def parseAuthority (authority : List Char) : Bool :=
  match lastIndexOf '@' authority with
  | none => parseHost authority
  | some i =>
    parseHost (authority.drop (i + 1)) &&
    validUserinfo (authority.take i) &&
    (if (authority.take i).contains ':' then
      unescapeOk .userPassword (cutAtFirst ':' (authority.take i)).1 &&
      unescapeOk .userPassword (cutAtFirst ':' (authority.take i)).2
    else unescapeOk .userPassword (authority.take i))

/-- The authority/path split of net/url `parse`: everything after `//` up
to the first `/`. -/
def spanUntilSlash : List Char → List Char × List Char
  | [] => ([], [])
  | c :: rest =>
    if c == '/' then ([], c :: rest)
    else
      let p := spanUntilSlash rest
      (c :: p.1, p.2)

/-- Two leading slashes. -/
def hasDoubleSlash : List Char → Bool
  | '/' :: '/' :: _ => true
  | _ => false

/-- Whether `url.ParseRequestURI` (net/url `parse` with
`viaRequest = true`) succeeds: no control bytes, non-empty, `*` allowed,
scheme extraction must not fail, a rootless remainder is opaque (needs a
scheme) and otherwise an error, an authority after `scheme://` must
parse, and the path must unescape. -/
def parseRequestURIOk (s : String) : Bool :=
  let cs := s.toList
  if cs.any isCtlByte then false
  else if cs.isEmpty then false
  else if cs == ['*'] then true
  else
    match getScheme cs [] cs with
    | none => false
    | some (scheme, afterScheme) =>
      let rest := stripQuery afterScheme
      match rest with
      | '/' :: _ =>
        if !scheme.isEmpty && hasDoubleSlash rest then
          parseAuthority (spanUntilSlash (rest.drop 2)).1 &&
          unescapeOk .path (spanUntilSlash (rest.drop 2)).2
        else unescapeOk .path rest
      | _ => !scheme.isEmpty

/-- Largest signed 64-bit integer. -/
def int64Max : Nat := 9223372036854775807

/-- The optional leading sign of strconv.ParseInt: `true` means negative;
the remaining characters must be the digits. -/
def splitSign : List Char → Bool × List Char
  | '+' :: ds => (false, ds)
  | '-' :: ds => (true, ds)
  | ds => (false, ds)

/-- Numeric value of a run of decimal digits. -/
def digitsToNat (ds : List Char) : Nat :=
  ds.foldl (fun n c => n * 10 + (c.toNat - 48)) 0

/-- Whether `strconv.ParseInt(s, 10, 64)` succeeds, per its contract: an
optional sign, a non-empty run of decimal digits, and a value
representable in a signed 64-bit integer. -/
def parseInt64Ok (s : String) : Bool :=
  let p := splitSign s.toList
  !p.2.isEmpty && p.2.all isDigitChar &&
    (if p.1 then digitsToNat p.2 ≤ int64Max + 1 else digitsToNat p.2 ≤ int64Max)

set_option linter.unusedVariables false in
/-- `ValidateInput` from the source (`title` is accepted but never
inspected): the error returned, `none` meaning valid input. -/
def ValidateInput (videoURL title publishedAt : String) : Option String :=
  if videoURL = "" then some "video URL cannot be empty"
  else if !parseRequestURIOk videoURL then some "invalid video URL"
  else if publishedAt = "" then some "published_at cannot be empty"
  else if !parseInt64Ok publishedAt then some "invalid published_at timestamp"
  else none

/-- Modelled from the spec: "a well-formed absolute URI" — a URI that
carries a scheme and parses. -/
def specAbsoluteURI (s : String) : Bool :=
  (match getScheme s.toList [] s.toList with
   | some p => !p.1.isEmpty
   | none => false) && parseRequestURIOk s

/-- Modelled from the spec: a string that "parses as a base-10 integer" —
an optional sign followed by at least one decimal digit, with no bound
on magnitude. -/
def specBase10Integer (s : String) : Bool :=
  let p := splitSign s.toList
  !p.2.isEmpty && p.2.all isDigitChar

/-- The signed 64-bit range side-condition of `strconv.ParseInt`. -/
def int64Range (s : String) : Bool :=
  let p := splitSign s.toList
  if p.1 then digitsToNat p.2 ≤ int64Max + 1 else digitsToNat p.2 ≤ int64Max

/-- `parseInt64Ok` is the base-10 shape check plus the 64-bit range
check. -/
theorem parseInt64_split (s : String) :
    parseInt64Ok s = (specBase10Integer s && int64Range s) := by
  unfold parseInt64Ok specBase10Integer int64Range
  rcases splitSign s.toList with ⟨neg, ds⟩
  simp [Bool.and_assoc]

/-- Claim C6 counterexample: `ValidateInput` accepts the rooted path
"/foo", which is not an absolute URI, and rejects the 20-digit base-10
integer timestamp "99999999999999999999" (it exceeds the signed 64-bit
range), so validation does not fail exactly on the three spec
conditions. -/
theorem C6_counterexample :
    ValidateInput "/foo" "t" "123" = none ∧
    specAbsoluteURI "/foo" = false ∧
    ValidateInput "http://x" "t" "99999999999999999999" =
      some "invalid published_at timestamp" ∧
    ("http://x" : String) ≠ "" ∧
    specAbsoluteURI "http://x" = true ∧
    specBase10Integer "99999999999999999999" = true := by
  refine ⟨by decide, by decide, by decide, by decide, by decide, by decide⟩

/-- Claim C6 (amended): validation fails exactly when the resolved URL is
empty, the URL is rejected by the request-URI parser (which accepts any
parseable absolute URI or rooted path), or the timestamp is not an
optionally signed decimal integer within the signed 64-bit range. -/
theorem C6_validate_amended (videoURL title publishedAt : String) :
    ValidateInput videoURL title publishedAt = none ↔
      (videoURL ≠ "" ∧ parseRequestURIOk videoURL = true ∧
       specBase10Integer publishedAt = true ∧ int64Range publishedAt = true) := by
  have hsplit := parseInt64_split publishedAt
  have hempty : specBase10Integer "" = false := by decide
  unfold ValidateInput
  split_ifs with h1 h2 h3 h4
  · simp [h1]
  · simp only [Bool.not_eq_true'] at h2
    simp [h2]
  · subst h3
    simp [hempty]
  · simp only [Bool.not_eq_true'] at h4
    rw [hsplit] at h4
    simp only [Bool.and_eq_false_iff] at h4
    constructor
    · intro hc; cases hc
    · rintro ⟨hu, hp, hb, hr⟩
      rcases h4 with h4 | h4 <;> simp_all
  · simp only [Bool.not_eq_true', Bool.not_eq_false] at h2 h4
    rw [hsplit] at h4
    simp only [Bool.and_eq_true] at h4
    simp [h1, h2, h4.1, h4.2]

/-- Witness for the amended C6 at a concrete valid input. -/
theorem C6_validate_amended_witness :
    ValidateInput "http://x" "t" "123" = none ↔
      (("http://x" : String) ≠ "" ∧ parseRequestURIOk "http://x" = true ∧
       specBase10Integer "123" = true ∧ int64Range "123" = true) :=
  C6_validate_amended "http://x" "t" "123"
